import Mathlib

/-
Verification of tools/loadgen/plot_latency.py: a parse-then-render pipeline
that turns the text report of a load-testing tool into a latency summary
record and a plot.

Shallow embedding conventions:
  - Text is modelled as List Char.
  - Python float values are modelled as rationals; the conversion float(tok)
    is modelled by pyFloat?, covering the finite decimal and exponent literal
    forms (optional sign, digits, one optional dot, optional e-exponent).
    Special spellings such as inf, nan and underscore separators are outside
    the model; none of the inputs considered here use them.
  - The Python dict percentiles is modelled as an insertion-ordered
    association list; overwriting an existing key keeps its position and
    replaces its value, exactly like a Python dict.
  - The three summary regexes and the section regex are modelled by
    specialised scanners; each regex is deterministic (its greedy character
    classes are disjoint from what follows), so maximal munch matches the
    regex engine.
  - File IO is abstracted: parse_hey_output takes the file content, and the
    renderer and main report which exit code they produce and whether the
    savefig write is reached.
-/

namespace PlotLatency

/-- Whitespace as recognised by the str.split() and regex scanning in the
script (ASCII whitespace). -/
def isPySpace (c : Char) : Bool :=
  c = ' ' || c = '\t' || c = '\n' || c = '\r' || c = Char.ofNat 11 || c = Char.ofNat 12

/-- Characters matched by the regex character class of digits and dots. -/
def isDigitDot (c : Char) : Bool :=
  c.isDigit || c = '.'

/-- Value of a digit string, as int() computes it for a run of digits. -/
def digitsToNat (cs : List Char) : Nat :=
  cs.foldl (fun n c => 10 * n + (c.toNat - 48)) 0

/-- Splits on runs of whitespace, dropping empty pieces: the behaviour of
line.strip().split() in the script (strip is subsumed by split with no
arguments). -/
def splitWsAux : List Char → List Char → List (List Char)
  | [], acc => if acc.isEmpty then [] else [acc.reverse]
  | c :: cs, acc =>
    if isPySpace c then
      if acc.isEmpty then splitWsAux cs [] else acc.reverse :: splitWsAux cs []
    else splitWsAux cs (c :: acc)

def splitWs (cs : List Char) : List (List Char) :=
  splitWsAux cs []

/-- Splits on newline characters keeping empty pieces: the behaviour of
text.split with a newline separator. -/
def splitLinesAux : List Char → List Char → List (List Char)
  | [], acc => [acc.reverse]
  | c :: cs, acc =>
    if c = '\n' then acc.reverse :: splitLinesAux cs [] else splitLinesAux cs (c :: acc)

def splitLines (cs : List Char) : List (List Char) :=
  splitLinesAux cs []

/-- Removes every trailing percent character: tok.rstrip of a percent sign. -/
def rstripPercent (cs : List Char) : List Char :=
  (cs.reverse.dropWhile (fun c => c = '%')).reverse

/-- Mantissa value of integer part ip and fractional part fp of a decimal
literal. -/
def mantissa (ip fp : List Char) : ℚ :=
  (digitsToNat ip : ℚ) + (digitsToNat fp : ℚ) / 10 ^ fp.length

/-- Exponent suffix of a float literal: an optional sign followed by a
nonempty digit run, scaling the mantissa m. -/
def pyExp? (m : ℚ) (cs : List Char) : Option ℚ :=
  match cs with
  | [] => none
  | c :: ds =>
    if c = '+' then
      if ds.all Char.isDigit && !ds.isEmpty then some (m * 10 ^ digitsToNat ds) else none
    else if c = '-' then
      if ds.all Char.isDigit && !ds.isEmpty then some (m / 10 ^ digitsToNat ds) else none
    else
      if (c :: ds).all Char.isDigit then some (m * 10 ^ digitsToNat (c :: ds)) else none

/-- Tail of a float literal after the dot: fractional digits and an
optional exponent; ip is the integer part already read, and at least one
digit must appear on one side of the dot. -/
def pyFracTail? (ip rest2 : List Char) : Option ℚ :=
  if ip.isEmpty && (rest2.takeWhile Char.isDigit).isEmpty then none
  else
    match rest2.dropWhile Char.isDigit with
    | [] => some (mantissa ip (rest2.takeWhile Char.isDigit))
    | c :: rest4 =>
      if c = 'e' || c = 'E' then pyExp? (mantissa ip (rest2.takeWhile Char.isDigit)) rest4
      else none

/-- Unsigned part of the float() conversion: digits, an optional dot with
digits, an optional exponent; at least one digit must be present. -/
def pyFloatMag? (cs : List Char) : Option ℚ :=
  match cs.dropWhile Char.isDigit with
  | [] =>
    if (cs.takeWhile Char.isDigit).isEmpty then none
    else some ((digitsToNat (cs.takeWhile Char.isDigit) : ℚ))
  | c :: rest2 =>
    if c = '.' then pyFracTail? (cs.takeWhile Char.isDigit) rest2
    else if c = 'e' || c = 'E' then
      if (cs.takeWhile Char.isDigit).isEmpty then none
      else pyExp? ((digitsToNat (cs.takeWhile Char.isDigit) : ℚ)) rest2
    else none

/-- Model of float(tok) on a whitespace-free token: optional sign, then the
unsigned literal; returns none where float() raises ValueError. -/
def pyFloat? (cs : List Char) : Option ℚ :=
  match cs with
  | [] => none
  | c :: rest =>
    if c = '+' then pyFloatMag? rest
    else if c = '-' then (pyFloatMag? rest).map (fun q => -q)
    else pyFloatMag? (c :: rest)

/-- Drops the literal lit from the front of cs, or fails. -/
def dropLit (lit cs : List Char) : Option (List Char) :=
  if lit.isPrefixOf cs then some (cs.drop lit.length) else none

/-- Tries an anchored matcher at every position from left to right: the
semantics of re.search for the anchored matchers below. -/
def searchMatch {α : Type} (m : List Char → Option α) : List Char → Option α
  | [] => m []
  | c :: cs =>
    match m (c :: cs) with
    | some a => some a
    | none => searchMatch m cs

/-- Remainder of cs after the first occurrence of needle, or none when
needle does not occur. -/
def afterFirst? (needle : List Char) : List Char → Option (List Char)
  | [] => if needle.isEmpty then some [] else none
  | c :: cs =>
    if needle.isPrefixOf (c :: cs) then some ((c :: cs).drop needle.length)
    else afterFirst? needle cs

/-- Prefix of cs before the first occurrence of needle, or none when needle
does not occur. -/
def beforeFirst? (needle : List Char) : List Char → Option (List Char)
  | [] => if needle.isEmpty then some [] else none
  | c :: cs =>
    if needle.isPrefixOf (c :: cs) then some []
    else (beforeFirst? needle cs).map (fun r => c :: r)

def latLit : List Char := ("Latency distribution:").data

def rpsLit : List Char := ("Requests/sec:").data

def totalLit : List Char := ("Total:").data

def requestsLit : List Char := ("requests").data

def inLit : List Char := ("in").data

/-- Bounded latency block: the text strictly between the first latency
header and the first throughput header after it.  This is the value of the
lazy group of the section regex under re.search with DOTALL, and it is none
exactly when the regex does not match. -/
def latencySection? (content : List Char) : Option (List Char) :=
  match afterFirst? latLit content with
  | none => none
  | some rest => beforeFirst? rpsLit rest

/-- Anchored matcher for the total-requests regex: the label, whitespace, a
digit run, whitespace, the word of the label suffix; captures the digits. -/
def matchTotalAt (cs : List Char) : Option Nat :=
  match dropLit totalLit cs with
  | none => none
  | some r1 =>
    if (r1.takeWhile isPySpace).isEmpty then none
    else
      let r2 := r1.dropWhile isPySpace
      if (r2.takeWhile Char.isDigit).isEmpty then none
      else
        let r3 := r2.dropWhile Char.isDigit
        if (r3.takeWhile isPySpace).isEmpty then none
        else
          match dropLit requestsLit (r3.dropWhile isPySpace) with
          | none => none
          | some _ => some (digitsToNat (r2.takeWhile Char.isDigit))

/-- Anchored matcher for the duration regex: the word, whitespace, a run of
digits and dots, then a literal letter s; captures the run as text. -/
def matchDurAt (cs : List Char) : Option (List Char) :=
  match dropLit inLit cs with
  | none => none
  | some r1 =>
    if (r1.takeWhile isPySpace).isEmpty then none
    else if ((r1.dropWhile isPySpace).takeWhile isDigitDot).isEmpty then none
    else
      match (r1.dropWhile isPySpace).dropWhile isDigitDot with
      | 's' :: _ => some ((r1.dropWhile isPySpace).takeWhile isDigitDot)
      | _ => none

/-- Anchored matcher for the throughput regex: the label, whitespace, a run
of digits and dots; captures the run as text. -/
def matchRpsAt (cs : List Char) : Option (List Char) :=
  match dropLit rpsLit cs with
  | none => none
  | some r1 =>
    if (r1.takeWhile isPySpace).isEmpty then none
    else if ((r1.dropWhile isPySpace).takeWhile isDigitDot).isEmpty then none
    else some ((r1.dropWhile isPySpace).takeWhile isDigitDot)

def totalSearch (content : List Char) : Option Nat :=
  searchMatch matchTotalAt content

def durSearch (content : List Char) : Option (List Char) :=
  searchMatch matchDurAt content

def rpsSearch (content : List Char) : Option (List Char) :=
  searchMatch matchRpsAt content

/-- Entry extracted from one line of the latency block, if any: the line
must contain a percent sign and split into at least two tokens; the second
token must convert with float(), then the first token with its trailing
percent signs removed must convert with float().  Both conversions sit in
the try block of the script, so a failing line yields no entry rather than
an error. -/
def percLineEntry? (line : List Char) : Option (ℚ × ℚ) :=
  if line.contains '%' then
    match splitWs line with
    | t0 :: t1 :: _ =>
      match pyFloat? t1 with
      | none => none
      | some v =>
        match pyFloat? (rstripPercent t0) with
        | none => none
        | some r => some (r, v)
    | _ => none
  else none

/-- Insertion-ordered dict update, as a Python dict assignment behaves: an
existing key keeps its position and gets the new value, a new key is
appended. -/
def dictInsert (k v : ℚ) : List (ℚ × ℚ) → List (ℚ × ℚ)
  | [] => [(k, v)]
  | (k2, v2) :: rest => if k2 = k then (k2, v) :: rest else (k2, v2) :: dictInsert k v rest

/-- Lookup in the insertion-ordered dict. -/
def dictLookup (k : ℚ) : List (ℚ × ℚ) → Option ℚ
  | [] => none
  | (k2, v2) :: rest => if k2 = k then some v2 else dictLookup k rest

/-- One iteration of the percentile loop body on one line. -/
def percStep (d : List (ℚ × ℚ)) (line : List Char) : List (ℚ × ℚ) :=
  match percLineEntry? line with
  | none => d
  | some (r, v) => dictInsert r v d

/-- Percentile loop over an explicit list of lines. -/
def parsePercentilesLines (ls : List (List Char)) : List (ℚ × ℚ) :=
  ls.foldl percStep []

/-- Percentile table of a latency block: the block is split on newlines and
each line feeds the loop body. -/
def parsePercentiles (block : List Char) : List (ℚ × ℚ) :=
  parsePercentilesLines (splitLines block)

/-- The stats record assembled by parse_hey_output. -/
structure Stats where
  total_requests : Nat
  duration : ℚ
  requests_per_sec : ℚ
  percentiles : List (ℚ × ℚ)
deriving DecidableEq

/-- Result of parse_hey_output on a file content: None becomes
sectionNotFound, an escaping ValueError from a summary conversion becomes
valueError, and a normal return carries the stats record. -/
inductive ParseOutcome where
  | sectionNotFound
  | valueError
  | ok (s : Stats)
deriving DecidableEq

/-- Model of parse_hey_output on the file content.  The section is located
first and its absence is the early None return; the percentile loop runs on
the block; the three summary regexes search the whole content; int() on the
captured digits cannot fail, while float() on a captured digits-and-dots
run fails on degenerate runs such as a lone dot, and such a failure escapes
the function as a ValueError. -/
def parse_hey_output (content : List Char) : ParseOutcome :=
  match latencySection? content with
  | none => ParseOutcome.sectionNotFound
  | some block =>
    match (match durSearch content with
           | none => some (0 : ℚ)
           | some t => pyFloat? t),
          (match rpsSearch content with
           | none => some (0 : ℚ)
           | some t => pyFloat? t) with
    | some d, some r =>
      ParseOutcome.ok ⟨(totalSearch content).getD 0, d, r, parsePercentiles block⟩
    | _, _ => ParseOutcome.valueError

/-- Ranks handed to the plot call, in the order the dict yields its keys:
insertion order. -/
def p_values (s : Stats) : List ℚ :=
  s.percentiles.map Prod.fst

/-- Latencies handed to the plot call, in the order the dict yields its
values: insertion order. -/
def latencies (s : Stats) : List ℚ :=
  s.percentiles.map Prod.snd

/-- Renderer effect: returns whether the savefig write is reached.  With an
empty percentile table the function prints an error and returns before any
figure is produced. -/
def create_latency_plot (s : Stats) : Bool :=
  match s.percentiles with
  | [] => false
  | _ :: _ => true

/-- Orchestration: exit code and whether an output file write was reached.
args models the command-line arguments after the script name.  A missing
input argument exits with code one; a None from the parser exits with code
one; an escaping exception is caught at the top level and exits with code
one; otherwise the renderer runs and the process falls off the end of main
with exit code zero. -/
def pymain (args : List String) (content : List Char) : Nat × Bool :=
  match args with
  | [] => (1, false)
  | _ :: _ =>
    match parse_hey_output content with
    | ParseOutcome.ok s => (0, create_latency_plot s)
    | _ => (1, false)

/-- Members of a takeWhile prefix satisfy the predicate. -/
theorem mem_takeWhile_pred {p : Char → Bool} :
    ∀ {l : List Char} {a : Char}, a ∈ l.takeWhile p → p a = true := by
  intro l
  induction l with
  | nil => intro a h; simp [List.takeWhile] at h
  | cons c cs ih =>
    intro a h
    cases hc : p c with
    | true =>
      simp only [List.takeWhile, hc] at h
      rcases List.mem_cons.mp h with rfl | h2
      · exact hc
      · exact ih h2
    | false => simp only [List.takeWhile, hc] at h; exact absurd h (List.not_mem_nil a)

/-- A successful search comes from a successful anchored match at some
suffix. -/
theorem searchMatch_some_exists {α : Type} (m : List Char → Option α) :
    ∀ (hay : List Char) (a : α), searchMatch m hay = some a → ∃ cs, m cs = some a := by
  intro hay
  induction hay with
  | nil => intro a h; exact ⟨[], h⟩
  | cons c cs ih =>
    intro a h
    unfold searchMatch at h
    cases hm : m (c :: cs) with
    | some b => rw [hm] at h; exact ⟨c :: cs, hm.trans h⟩
    | none => rw [hm] at h; exact ih a h

/-- The token captured by the duration matcher contains only digits and
dots. -/
theorem matchDurAt_chars (cs tok : List Char) (h : matchDurAt cs = some tok) :
    ∀ c ∈ tok, isDigitDot c = true := by
  unfold matchDurAt at h
  split at h
  · exact Option.noConfusion h
  · split at h
    · exact Option.noConfusion h
    · split at h
      · exact Option.noConfusion h
      · split at h
        · obtain rfl := Option.some.inj h
          intro c hc
          exact mem_takeWhile_pred hc
        · exact Option.noConfusion h

/-- The token captured by the throughput matcher contains only digits and
dots. -/
theorem matchRpsAt_chars (cs tok : List Char) (h : matchRpsAt cs = some tok) :
    ∀ c ∈ tok, isDigitDot c = true := by
  unfold matchRpsAt at h
  split at h
  · exact Option.noConfusion h
  · split at h
    · exact Option.noConfusion h
    · split at h
      · exact Option.noConfusion h
      · obtain rfl := Option.some.inj h
        intro c hc
        exact mem_takeWhile_pred hc

/-- The exponent scaling preserves non-negativity of the mantissa. -/
theorem pyExp?_nonneg (m : ℚ) (ds : List Char) (q : ℚ) (hm : 0 ≤ m)
    (h : pyExp? m ds = some q) : 0 ≤ q := by
  unfold pyExp? at h
  split at h
  · exact Option.noConfusion h
  · split at h
    · split at h
      · obtain rfl := Option.some.inj h
        exact mul_nonneg hm (by positivity)
      · exact Option.noConfusion h
    · split at h
      · split at h
        · obtain rfl := Option.some.inj h
          exact div_nonneg hm (by positivity)
        · exact Option.noConfusion h
      · split at h
        · obtain rfl := Option.some.inj h
          exact mul_nonneg hm (by positivity)
        · exact Option.noConfusion h

/-- Mantissas are non-negative. -/
theorem mantissa_nonneg (ip fp : List Char) : 0 ≤ mantissa ip fp := by
  unfold mantissa
  positivity

/-- The fractional tail of an unsigned literal is non-negative. -/
theorem pyFracTail?_nonneg (ip rest2 : List Char) (q : ℚ)
    (h : pyFracTail? ip rest2 = some q) : 0 ≤ q := by
  unfold pyFracTail? at h
  split at h
  · exact Option.noConfusion h
  · split at h
    · obtain rfl := Option.some.inj h
      exact mantissa_nonneg _ _
    · split at h
      · exact pyExp?_nonneg _ _ _ (mantissa_nonneg _ _) h
      · exact Option.noConfusion h

/-- The unsigned part of the float conversion is non-negative. -/
theorem pyFloatMag?_nonneg (cs : List Char) (q : ℚ) (h : pyFloatMag? cs = some q) :
    0 ≤ q := by
  unfold pyFloatMag? at h
  split at h
  · split at h
    · exact Option.noConfusion h
    · obtain rfl := Option.some.inj h
      positivity
  · split at h
    · exact pyFracTail?_nonneg _ _ _ h
    · split at h
      · split at h
        · exact Option.noConfusion h
        · exact pyExp?_nonneg _ _ _ (by positivity) h
      · exact Option.noConfusion h

/-- A token of digits and dots converts, when it converts at all, to a
non-negative value: such a token cannot start with a minus sign. -/
theorem pyFloat?_nonneg (cs : List Char) (q : ℚ)
    (hc : ∀ c ∈ cs, isDigitDot c = true) (h : pyFloat? cs = some q) : 0 ≤ q := by
  cases cs with
  | nil => exact Option.noConfusion h
  | cons c rest =>
    simp only [pyFloat?] at h
    have hcd := hc c (List.mem_cons_self _ _)
    have hplus : ¬(c = '+') := by
      intro hp; rw [hp] at hcd; exact absurd hcd (by with_unfolding_all decide)
    have hminus : ¬(c = '-') := by
      intro hp; rw [hp] at hcd; exact absurd hcd (by with_unfolding_all decide)
    rw [if_neg hplus, if_neg hminus] at h
    exact pyFloatMag?_nonneg _ _ h

/-- Lookup finds the value just written for a key. -/
theorem dictLookup_dictInsert_self (k v : ℚ) (d : List (ℚ × ℚ)) :
    dictLookup k (dictInsert k v d) = some v := by
  induction d with
  | nil => simp [dictInsert, dictLookup]
  | cons e rest ih =>
    obtain ⟨k2, v2⟩ := e
    by_cases hk : k2 = k
    · simp [dictInsert, dictLookup, hk]
    · simp [dictInsert, dictLookup, hk, ih]

/-- Writing one key leaves lookup of a different key unchanged. -/
theorem dictLookup_dictInsert_ne (k r v : ℚ) (d : List (ℚ × ℚ)) (hne : k ≠ r) :
    dictLookup r (dictInsert k v d) = dictLookup r d := by
  induction d with
  | nil => simp [dictInsert, dictLookup, fun h => hne h]
  | cons e rest ih =>
    obtain ⟨k2, v2⟩ := e
    by_cases hk : k2 = k
    · subst hk
      simp [dictInsert, dictLookup, hne, ih]
    · simp only [dictInsert, if_neg hk]
      by_cases hr : k2 = r
      · simp [dictLookup, hr]
      · simp [dictLookup, hr, ih]

/-- Lines that never yield an entry for rank r leave the lookup of r over
the loop unchanged. -/
theorem dictLookup_fold_not_def (ls : List (List Char)) (r : ℚ)
    (h : ∀ l ∈ ls, ∀ p : ℚ × ℚ, percLineEntry? l = some p → p.1 ≠ r) :
    ∀ d, dictLookup r (ls.foldl percStep d) = dictLookup r d := by
  induction ls with
  | nil => intro d; rfl
  | cons l ls ih =>
    intro d
    rw [List.foldl_cons, ih (fun x hx => h x (List.mem_cons_of_mem _ hx))]
    cases hp : percLineEntry? l with
    | none => simp [percStep, hp]
    | some p =>
      obtain ⟨k, v⟩ := p
      have hne : k ≠ r := h l (List.mem_cons_self _ _) ⟨k, v⟩ hp
      simp [percStep, hp, dictLookup_dictInsert_ne k r v d hne]

/-- After a line that yields an entry for rank r, with no later line
touching r, the loop result maps r to that value. -/
theorem dictLookup_fold_append (pre post : List (List Char)) (good : List Char)
    (r v : ℚ) (d : List (ℚ × ℚ))
    (hgood : percLineEntry? good = some (r, v))
    (hpost : ∀ l ∈ post, ∀ p : ℚ × ℚ, percLineEntry? l = some p → p.1 ≠ r) :
    dictLookup r ((pre ++ good :: post).foldl percStep d) = some v := by
  rw [List.foldl_append, List.foldl_cons, dictLookup_fold_not_def post r hpost]
  simp [percStep, hgood, dictLookup_dictInsert_self]

/-- Field equations of a successfully assembled stats record: the count is
the whole-text search with default zero, the duration and throughput come
from their whole-text searches with default zero, and the percentile table
is the parse of the located block. -/
theorem parse_ok_fields (content : List Char) (s : Stats)
    (h : parse_hey_output content = ParseOutcome.ok s) :
    s.total_requests = (totalSearch content).getD 0
    ∧ ((durSearch content = none ∧ s.duration = 0) ∨
        ∃ t, durSearch content = some t ∧ pyFloat? t = some s.duration)
    ∧ ((rpsSearch content = none ∧ s.requests_per_sec = 0) ∨
        ∃ t, rpsSearch content = some t ∧ pyFloat? t = some s.requests_per_sec)
    ∧ ∃ block, latencySection? content = some block ∧ s.percentiles = parsePercentiles block := by
  cases hs : latencySection? content with
  | none =>
    rw [show parse_hey_output content = ParseOutcome.sectionNotFound by
      simp [parse_hey_output, hs]] at h
    exact absurd h (by simp)
  | some block =>
    cases hd : durSearch content with
    | none =>
      cases hr : rpsSearch content with
      | none =>
        rw [show parse_hey_output content
            = ParseOutcome.ok ⟨(totalSearch content).getD 0, 0, 0, parsePercentiles block⟩ by
          simp [parse_hey_output, hs, hd, hr]] at h
        obtain rfl := (ParseOutcome.ok.inj h).symm
        exact ⟨rfl, Or.inl ⟨rfl, rfl⟩, Or.inl ⟨rfl, rfl⟩, block, rfl, rfl⟩
      | some rt =>
        cases hv : pyFloat? rt with
        | none =>
          rw [show parse_hey_output content = ParseOutcome.valueError by
            simp [parse_hey_output, hs, hd, hr, hv]] at h
          exact absurd h (by simp)
        | some rv =>
          rw [show parse_hey_output content
              = ParseOutcome.ok ⟨(totalSearch content).getD 0, 0, rv, parsePercentiles block⟩ by
            simp [parse_hey_output, hs, hd, hr, hv]] at h
          obtain rfl := (ParseOutcome.ok.inj h).symm
          exact ⟨rfl, Or.inl ⟨rfl, rfl⟩, Or.inr ⟨rt, rfl, hv⟩, block, rfl, rfl⟩
    | some dt =>
      cases hv1 : pyFloat? dt with
      | none =>
        rw [show parse_hey_output content = ParseOutcome.valueError by
          simp [parse_hey_output, hs, hd, hv1]] at h
        exact absurd h (by simp)
      | some dv =>
        cases hr : rpsSearch content with
        | none =>
          rw [show parse_hey_output content
              = ParseOutcome.ok ⟨(totalSearch content).getD 0, dv, 0, parsePercentiles block⟩ by
            simp [parse_hey_output, hs, hd, hv1, hr]] at h
          obtain rfl := (ParseOutcome.ok.inj h).symm
          exact ⟨rfl, Or.inr ⟨dt, rfl, hv1⟩, Or.inl ⟨rfl, rfl⟩, block, rfl, rfl⟩
        | some rt =>
          cases hv2 : pyFloat? rt with
          | none =>
            rw [show parse_hey_output content = ParseOutcome.valueError by
              simp [parse_hey_output, hs, hd, hv1, hr, hv2]] at h
            exact absurd h (by simp)
          | some rv =>
            rw [show parse_hey_output content
                = ParseOutcome.ok ⟨(totalSearch content).getD 0, dv, rv, parsePercentiles block⟩ by
              simp [parse_hey_output, hs, hd, hv1, hr, hv2]] at h
            obtain rfl := (ParseOutcome.ok.inj h).symm
            exact ⟨rfl, Or.inr ⟨dt, rfl, hv1⟩, Or.inr ⟨rt, rfl, hv2⟩, block, rfl, rfl⟩

def refInput : List Char :=
  ("Total: 1000 requests\nin 10.0s\n\nLatency distribution:\n  50% 12.3\n  90% 45.6\n  95% 78.9\n  99% 150.2\n\nRequests/sec: 100.0\n").data

def c1cexInput : List Char := ("Latency distribution:\nRequests/sec: 5").data

def c1okInput : List Char := ("Latency distribution:\n50% 1.0\nRequests/sec: 7").data

def c2cexInput : List Char := ("Latency distribution:\n50% 1.0\nRequests/sec: 3\nin .s").data

def c2okInput : List Char := ("Latency distribution:\n50% 1.0\nRequests/sec: 8").data

def c3cexInput : List Char := ("Latency distribution:\n90% 2.0\n50% 1.0\nRequests/sec: 4").data

def c5cexInput : List Char := ("Latency distribution:\n150% -3.5\nRequests/sec: 2").data

def c5okInput : List Char := ("in 5s\nLatency distribution:\nRequests/sec: 2").data

def c8cexInput : List Char := ("Latency distribution:\nRequests/sec: .").data

def c8okInput : List Char := ("Latency distribution:\nRequests/sec:").data

def c6emptyInput : List Char := ("Latency distribution:\nRequests/sec:").data

/-- C1 counterexample: with an input argument given and content whose
latency block is located but yields zero percentile entries, the process
exits with code zero and writes nothing, not with code one as the claim
states. -/
theorem c1_exit_code_cex :
    pymain [("report.txt")] c1cexInput = (0, false)
    ∧ parse_hey_output c1cexInput = ParseOutcome.ok ⟨0, 0, 5, []⟩ :=
  ⟨by with_unfolding_all decide, by with_unfolding_all decide⟩

/-- C1 (amended): the process exits with code one when no input-file
argument is given and when parsing fails, with SectionNotFound or with an
escaping conversion error; after a successful parse it always exits with
code zero: writing the plot when the percentile mapping is nonempty, and
reporting without writing when it is empty. -/
theorem c1_exit_codes (args : List String) (content : List Char) :
    (args = [] → pymain args content = (1, false))
    ∧ (args ≠ [] → parse_hey_output content = ParseOutcome.sectionNotFound →
        pymain args content = (1, false))
    ∧ (args ≠ [] → parse_hey_output content = ParseOutcome.valueError →
        pymain args content = (1, false))
    ∧ (∀ s, args ≠ [] → parse_hey_output content = ParseOutcome.ok s →
        s.percentiles = [] → pymain args content = (0, false))
    ∧ (∀ s, args ≠ [] → parse_hey_output content = ParseOutcome.ok s →
        s.percentiles ≠ [] → pymain args content = (0, true)) := by
  refine ⟨?_, ?_, ?_, ?_, ?_⟩
  · intro ha; subst ha; rfl
  · intro ha hp
    cases args with
    | nil => exact absurd rfl ha
    | cons a as => simp [pymain, hp]
  · intro ha hp
    cases args with
    | nil => exact absurd rfl ha
    | cons a as => simp [pymain, hp]
  · intro s ha hp hperc
    cases args with
    | nil => exact absurd rfl ha
    | cons a as => simp [pymain, hp, create_latency_plot, hperc]
  · intro s ha hp hperc
    cases args with
    | nil => exact absurd rfl ha
    | cons a as =>
      cases hl : s.percentiles with
      | nil => exact absurd hl hperc
      | cons e rest => simp [pymain, hp, create_latency_plot, hl]

/-- C1 witness: the amended exit-code theorem applied at concrete inputs
for the missing-argument, empty-mapping and success branches. -/
theorem c1_exit_codes_witness :
    pymain ([] : List String) c1okInput = (1, false)
    ∧ pymain [("report.txt")] c1cexInput = (0, false)
    ∧ pymain [("report.txt")] c1okInput = (0, true) := by
  refine ⟨(c1_exit_codes ([] : List String) c1okInput).1 rfl, ?_, ?_⟩
  · exact (c1_exit_codes [("report.txt")] c1cexInput).2.2.2.1
      ⟨0, 0, 5, []⟩ (by with_unfolding_all decide) (by with_unfolding_all decide) rfl
  · exact (c1_exit_codes [("report.txt")] c1okInput).2.2.2.2
      ⟨0, 0, 7, [(50, 1)]⟩ (by with_unfolding_all decide) (by with_unfolding_all decide) (by with_unfolding_all decide)

/-- C2 counterexample: an input whose latency block is located still makes
parse fail, because a ValueError escapes from the duration conversion on
the captured token of a lone dot, against the claim that parse cannot
raise once the delimiters are found. -/
theorem c2_only_failure_cex :
    parse_hey_output c2cexInput = ParseOutcome.valueError
    ∧ (latencySection? c2cexInput).isSome = true
    ∧ durSearch c2cexInput = some ((".").data) :=
  ⟨by with_unfolding_all decide, by with_unfolding_all decide, by with_unfolding_all decide⟩

/-- C2 (amended): parse fails with SectionNotFound exactly when the block
delimiters cannot be located; for any other input parse returns an
assembled report unless a matched duration or throughput token fails float
conversion, in which case a ValueError escapes. -/
theorem c2_failure_modes (content : List Char) :
    (parse_hey_output content = ParseOutcome.sectionNotFound ↔
      latencySection? content = none)
    ∧ (parse_hey_output content = ParseOutcome.valueError ↔
        (latencySection? content ≠ none ∧
          ((∃ t, durSearch content = some t ∧ pyFloat? t = none) ∨
           (∃ t, rpsSearch content = some t ∧ pyFloat? t = none))))
    ∧ (∀ block, latencySection? content = some block →
        (∀ t, durSearch content = some t → pyFloat? t ≠ none) →
        (∀ t, rpsSearch content = some t → pyFloat? t ≠ none) →
        ∃ s, parse_hey_output content = ParseOutcome.ok s
          ∧ s.percentiles = parsePercentiles block) := by
  cases hs : latencySection? content with
  | none =>
    have hpe : parse_hey_output content = ParseOutcome.sectionNotFound := by
      simp [parse_hey_output, hs]
    refine ⟨by simp [hpe], by simp [hpe], ?_⟩
    intro block hb
    exact Option.noConfusion hb
  | some block0 =>
    cases hd : durSearch content with
    | none =>
      cases hr : rpsSearch content with
      | none =>
        have hpe : parse_hey_output content
            = ParseOutcome.ok ⟨(totalSearch content).getD 0, 0, 0, parsePercentiles block0⟩ := by
          simp [parse_hey_output, hs, hd, hr]
        refine ⟨by simp [hpe], by simp [hpe], ?_⟩
        intro block hb hdur hrps
        obtain rfl := Option.some.inj hb
        exact ⟨_, hpe, rfl⟩
      | some rt =>
        cases hv : pyFloat? rt with
        | none =>
          have hpe : parse_hey_output content = ParseOutcome.valueError := by
            simp [parse_hey_output, hs, hd, hr, hv]
          refine ⟨by simp [hpe], ?_, ?_⟩
          · rw [hpe]
            exact iff_of_true rfl
              ⟨fun hc => Option.noConfusion hc, Or.inr ⟨rt, rfl, hv⟩⟩
          · intro block hb hdur hrps
            exact absurd hv (hrps rt rfl)
        | some rv =>
          have hpe : parse_hey_output content
              = ParseOutcome.ok ⟨(totalSearch content).getD 0, 0, rv, parsePercentiles block0⟩ := by
            simp [parse_hey_output, hs, hd, hr, hv]
          refine ⟨by simp [hpe], by simp [hpe, hv], ?_⟩
          intro block hb hdur hrps
          obtain rfl := Option.some.inj hb
          exact ⟨_, hpe, rfl⟩
    | some dt =>
      cases hv1 : pyFloat? dt with
      | none =>
        have hpe : parse_hey_output content = ParseOutcome.valueError := by
          simp [parse_hey_output, hs, hd, hv1]
        refine ⟨by simp [hpe], ?_, ?_⟩
        · rw [hpe]
          exact iff_of_true rfl
            ⟨fun hc => Option.noConfusion hc, Or.inl ⟨dt, rfl, hv1⟩⟩
        · intro block hb hdur hrps
          exact absurd hv1 (hdur dt rfl)
      | some dv =>
        cases hr : rpsSearch content with
        | none =>
          have hpe : parse_hey_output content
              = ParseOutcome.ok ⟨(totalSearch content).getD 0, dv, 0, parsePercentiles block0⟩ := by
            simp [parse_hey_output, hs, hd, hv1, hr]
          refine ⟨by simp [hpe], by simp [hpe, hv1], ?_⟩
          intro block hb hdur hrps
          obtain rfl := Option.some.inj hb
          exact ⟨_, hpe, rfl⟩
        | some rt =>
          cases hv2 : pyFloat? rt with
          | none =>
            have hpe : parse_hey_output content = ParseOutcome.valueError := by
              simp [parse_hey_output, hs, hd, hv1, hr, hv2]
            refine ⟨by simp [hpe], ?_, ?_⟩
            · rw [hpe]
              exact iff_of_true rfl
                ⟨fun hc => Option.noConfusion hc, Or.inr ⟨rt, rfl, hv2⟩⟩
            · intro block hb hdur hrps
              exact absurd hv2 (hrps rt rfl)
          | some rv =>
            have hpe : parse_hey_output content
                = ParseOutcome.ok ⟨(totalSearch content).getD 0, dv, rv, parsePercentiles block0⟩ := by
              simp [parse_hey_output, hs, hd, hv1, hr, hv2]
            refine ⟨by simp [hpe], by simp [hpe, hv1, hv2], ?_⟩
            intro block hb hdur hrps
            obtain rfl := Option.some.inj hb
            exact ⟨_, hpe, rfl⟩

/-- C2 witness: the amended failure-mode theorem applied at a concrete
input whose block is found and whose matched tokens all convert. -/
theorem c2_failure_modes_witness :
    ∃ s, parse_hey_output c2okInput = ParseOutcome.ok s
      ∧ s.percentiles = parsePercentiles (("\n50% 1.0\n").data) := by
  refine (c2_failure_modes c2okInput).2.2 (("\n50% 1.0\n").data) (by with_unfolding_all decide) ?_ ?_
  · intro t ht
    exact Option.noConfusion ((by with_unfolding_all decide : durSearch c2okInput = none).symm.trans ht)
  · intro t ht
    have h8 : rpsSearch c2okInput = some (("8").data) := by with_unfolding_all decide
    rw [h8] at ht
    obtain rfl := Option.some.inj ht
    decide

/-- C3 counterexample: a block listing rank ninety before rank fifty
parses to an association list in that encounter order, so the plotted rank
sequence is ninety then fifty, which is not the mapping sorted by key. -/
theorem c3_sorted_plot_cex :
    parse_hey_output c3cexInput = ParseOutcome.ok ⟨0, 0, 4, [(90, 2), (50, 1)]⟩
    ∧ p_values ⟨0, 0, 4, [(90, 2), (50, 1)]⟩ = [90, 50]
    ∧ ([((90 : ℚ), (2 : ℚ)), (50, 1)] ≠ [(50, 1), (90, 2)]) :=
  ⟨by with_unfolding_all decide, by with_unfolding_all decide, by with_unfolding_all decide⟩

/-- C3 (amended): the renderer hands the plot call the ranks and the
latencies in the insertion order of the mapping, the order in which ranks
were first parsed, so the plotted point sequence is exactly the
association list of the report, not that list sorted by key. -/
theorem c3_plot_order (s : Stats) :
    List.zip (p_values s) (latencies s) = s.percentiles := by
  obtain ⟨t, d, r, ps⟩ := s
  simp only [p_values, latencies]
  induction ps with
  | nil => rfl
  | cons e rest ih =>
    obtain ⟨a, b⟩ := e
    simp only [List.map_cons, List.zip_cons_cons]
    rw [ih]

set_option maxRecDepth 16384 in
/-- C4: parsing the well-formed reference report yields exactly the four
percentile entries and the three summary values the claim lists. -/
theorem c4_reference_parse :
    parse_hey_output refInput = ParseOutcome.ok
      ⟨1000, 10, 100, [(50, 123/10), (90, 456/10), (95, 789/10), (99, 1502/10)]⟩ := by
  with_unfolding_all decide

/-- C5 counterexample: a block line with rank one hundred fifty and a
negative latency value is accepted by parse, so the produced report
violates both the claimed key domain and the claimed non-negativity of
values. -/
theorem c5_invariant_cex :
    parse_hey_output c5cexInput = ParseOutcome.ok ⟨0, 0, 2, [(150, -7/2)]⟩
    ∧ ¬ ((150 : ℚ) ≤ 100) ∧ ((-7/2 : ℚ) < 0) :=
  ⟨by with_unfolding_all decide, by with_unfolding_all decide, by with_unfolding_all decide⟩

/-- C5 (amended): every report produced by parse has a natural-number
request count and non-negative duration and throughput, because their
captured tokens contain only digits and dots; no constraint is enforced on
the percentile mapping, whose keys and values are whatever the line tokens
convert to. -/
theorem c5_summary_nonneg (content : List Char) (s : Stats)
    (h : parse_hey_output content = ParseOutcome.ok s) :
    0 ≤ s.duration ∧ 0 ≤ s.requests_per_sec := by
  obtain ⟨-, hdur, hrps, -⟩ := parse_ok_fields content s h
  constructor
  · rcases hdur with ⟨-, h0⟩ | ⟨t, ht, hv⟩
    · simp [h0]
    · obtain ⟨cs, hm⟩ := searchMatch_some_exists matchDurAt content t ht
      exact pyFloat?_nonneg t s.duration (matchDurAt_chars cs t hm) hv
  · rcases hrps with ⟨-, h0⟩ | ⟨t, ht, hv⟩
    · simp [h0]
    · obtain ⟨cs, hm⟩ := searchMatch_some_exists matchRpsAt content t ht
      exact pyFloat?_nonneg t s.requests_per_sec (matchRpsAt_chars cs t hm) hv

/-- C5 witness: the amended non-negativity theorem applied at a concrete
input carrying a duration and a throughput. -/
theorem c5_summary_nonneg_witness :
    0 ≤ (Stats.mk 0 5 2 []).duration ∧ 0 ≤ (Stats.mk 0 5 2 []).requests_per_sec :=
  c5_summary_nonneg c5okInput ⟨0, 5, 2, []⟩ (by with_unfolding_all decide)

/-- C6: the savefig write is reached only after a successful parse
produced a nonempty percentile mapping; on a missing argument, on
SectionNotFound, and on an empty mapping no output file is written. -/
theorem c6_write_guard (args : List String) (content : List Char) :
    ((pymain args content).2 = true →
      ∃ s, parse_hey_output content = ParseOutcome.ok s ∧ s.percentiles ≠ [])
    ∧ (args = [] → (pymain args content).2 = false)
    ∧ (parse_hey_output content = ParseOutcome.sectionNotFound →
        (pymain args content).2 = false)
    ∧ (∀ s, parse_hey_output content = ParseOutcome.ok s → s.percentiles = [] →
        (pymain args content).2 = false) := by
  refine ⟨?_, ?_, ?_, ?_⟩
  · intro hw
    cases args with
    | nil => simp [pymain] at hw
    | cons a as =>
      cases hp : parse_hey_output content with
      | sectionNotFound => simp [pymain, hp] at hw
      | valueError => simp [pymain, hp] at hw
      | ok s =>
        refine ⟨s, rfl, ?_⟩
        simp only [pymain, hp] at hw
        cases hl : s.percentiles with
        | nil => simp [create_latency_plot, hl] at hw
        | cons e rest => simp [hl]
  · intro ha; subst ha; rfl
  · intro hp
    cases args with
    | nil => rfl
    | cons a as => simp [pymain, hp]
  · intro s hp hperc
    cases args with
    | nil => rfl
    | cons a as => simp [pymain, hp, create_latency_plot, hperc]

/-- C6 witness: the write-guard theorem applied at concrete failing
inputs. -/
theorem c6_write_guard_witness :
    (pymain ([] : List String) c6emptyInput).2 = false
    ∧ (pymain [("report.txt")] c6emptyInput).2 = false := by
  refine ⟨(c6_write_guard ([] : List String) c6emptyInput).2.1 rfl, ?_⟩
  exact (c6_write_guard [("report.txt")] c6emptyInput).2.2.2 ⟨0, 0, 0, []⟩ (by with_unfolding_all decide) rfl

/-- C7: a percentile line whose value token fails float conversion is
skipped without effect, and a later well-formed line of the same block is
still captured with its rank and value. -/
theorem c7_tolerant_lines (pre mid post : List (List Char)) (bad good : List Char)
    (t0 t1 : List Char) (ts : List (List Char)) (r v : ℚ)
    (_hp : bad.contains '%' = true)
    (hsplit : splitWs bad = t0 :: t1 :: ts)
    (hval : pyFloat? t1 = none)
    (hgood : percLineEntry? good = some (r, v))
    (hpost : ∀ l ∈ post, ∀ p : ℚ × ℚ, percLineEntry? l = some p → p.1 ≠ r) :
    parsePercentilesLines (pre ++ bad :: (mid ++ good :: post)) =
      parsePercentilesLines (pre ++ (mid ++ good :: post))
    ∧ dictLookup r (parsePercentilesLines (pre ++ bad :: (mid ++ good :: post)))
        = some v := by
  have hskip : percLineEntry? bad = none := by
    simp [percLineEntry?, hsplit, hval]
  have key : (pre ++ bad :: (mid ++ good :: post)).foldl percStep ([] : List (ℚ × ℚ))
      = (pre ++ (mid ++ good :: post)).foldl percStep [] := by
    rw [List.foldl_append, List.foldl_append, List.foldl_cons]
    congr 1
    simp [percStep, hskip]
  refine ⟨key, ?_⟩
  unfold parsePercentilesLines
  rw [key, show pre ++ (mid ++ good :: post) = (pre ++ mid) ++ good :: post by simp]
  exact dictLookup_fold_append (pre ++ mid) post good r v [] hgood hpost

/-- C7 witness: the tolerance theorem applied to a block with a malformed
value token followed by a well-formed line. -/
theorem c7_tolerant_lines_witness :
    parsePercentilesLines [("50% abc").data, ("90% 2.0").data] =
      parsePercentilesLines [("90% 2.0").data]
    ∧ dictLookup 90 (parsePercentilesLines [("50% abc").data, ("90% 2.0").data])
        = some 2 := by
  have h := c7_tolerant_lines [] [] [] (("50% abc").data) (("90% 2.0").data)
    (("50%").data) (("abc").data) [] 90 2 (by with_unfolding_all decide) (by with_unfolding_all decide) (by with_unfolding_all decide) (by with_unfolding_all decide)
    (fun l hl => absurd hl (List.not_mem_nil l))
  simpa using h

/-- C8 counterexample: with the throughput pattern present but its
captured token a lone dot, the conversion raises and parse ends in an
escaping ValueError, against the claim that summary extraction never
raises. -/
theorem c8_summary_cex :
    parse_hey_output c8cexInput = ParseOutcome.valueError
    ∧ rpsSearch c8cexInput = some ((".").data) :=
  ⟨by with_unfolding_all decide, by with_unfolding_all decide⟩

/-- C8 (amended): each summary field comes from a pattern search over the
whole input text and is exactly zero when its pattern is absent, never an
absent value; summary extraction can raise only when a present duration or
throughput pattern captures a token that float rejects. -/
theorem c8_summary_defaults (content : List Char) (s : Stats)
    (h : parse_hey_output content = ParseOutcome.ok s) :
    s.total_requests = (totalSearch content).getD 0
    ∧ (durSearch content = none → s.duration = 0)
    ∧ (∀ t, durSearch content = some t → pyFloat? t = some s.duration)
    ∧ (rpsSearch content = none → s.requests_per_sec = 0)
    ∧ (∀ t, rpsSearch content = some t → pyFloat? t = some s.requests_per_sec) := by
  obtain ⟨htot, hdur, hrps, -⟩ := parse_ok_fields content s h
  refine ⟨htot, ?_, ?_, ?_, ?_⟩
  · intro hn
    rcases hdur with ⟨-, h0⟩ | ⟨t, ht, -⟩
    · exact h0
    · rw [hn] at ht; exact Option.noConfusion ht
  · intro t ht
    rcases hdur with ⟨hn, -⟩ | ⟨t2, ht2, hv⟩
    · rw [hn] at ht; exact Option.noConfusion ht
    · rw [ht] at ht2
      obtain rfl := Option.some.inj ht2
      exact hv
  · intro hn
    rcases hrps with ⟨-, h0⟩ | ⟨t, ht, -⟩
    · exact h0
    · rw [hn] at ht; exact Option.noConfusion ht
  · intro t ht
    rcases hrps with ⟨hn, -⟩ | ⟨t2, ht2, hv⟩
    · rw [hn] at ht; exact Option.noConfusion ht
    · rw [ht] at ht2
      obtain rfl := Option.some.inj ht2
      exact hv

/-- C8 witness: the amended defaults theorem applied at an input where all
three summary patterns are absent. -/
theorem c8_summary_defaults_witness :
    (Stats.mk 0 0 0 []).total_requests = (totalSearch c8okInput).getD 0
    ∧ (durSearch c8okInput = none → (Stats.mk 0 0 0 []).duration = 0)
    ∧ (∀ t, durSearch c8okInput = some t → pyFloat? t = some (Stats.mk 0 0 0 []).duration)
    ∧ (rpsSearch c8okInput = none → (Stats.mk 0 0 0 []).requests_per_sec = 0)
    ∧ (∀ t, rpsSearch c8okInput = some t →
        pyFloat? t = some (Stats.mk 0 0 0 []).requests_per_sec) :=
  c8_summary_defaults c8okInput ⟨0, 0, 0, []⟩ (by with_unfolding_all decide)

/-- C9: when two lines of the block carry the same rank, the assembled
mapping associates that rank with the value of the later line; ranks are
the float conversions of the rank tokens, fractional ranks included. -/
theorem c9_last_wins (pre mid post : List (List Char)) (l1 l2 : List Char)
    (r v1 v2 : ℚ)
    (_h1 : percLineEntry? l1 = some (r, v1))
    (h2 : percLineEntry? l2 = some (r, v2))
    (h3 : ∀ l ∈ post, ∀ p : ℚ × ℚ, percLineEntry? l = some p → p.1 ≠ r) :
    dictLookup r (parsePercentilesLines (pre ++ l1 :: (mid ++ l2 :: post)))
      = some v2 := by
  unfold parsePercentilesLines
  rw [show pre ++ l1 :: (mid ++ l2 :: post) = (pre ++ l1 :: mid) ++ l2 :: post by simp]
  exact dictLookup_fold_append (pre ++ l1 :: mid) post l2 r v2 [] h2 h3

set_option maxRecDepth 4096 in
/-- C9 witness: the last-occurrence theorem applied to a block that lists
the fractional rank twice. -/
theorem c9_last_wins_witness :
    dictLookup (999/10) (parsePercentilesLines [("99.9% 1.0").data, ("99.9% 5.5").data])
      = some (11/2) := by
  have h := c9_last_wins [] [] [] (("99.9% 1.0").data) (("99.9% 5.5").data)
    (999/10) 1 (11/2) (by with_unfolding_all decide) (by with_unfolding_all decide) (fun l hl => absurd hl (List.not_mem_nil l))
  simpa using h

/-- C10: inside the block, a line containing a percent sign but fewer than
two tokens, or whose rank token fails float conversion after trailing
percent signs are stripped, is skipped with no effect on the loop and no
error. -/
theorem c10_rank_skip (pre post : List (List Char)) (line : List Char)
    (_hp : line.contains '%' = true)
    (h : (splitWs line).length < 2 ∨
      ∃ t0 t1 ts, splitWs line = t0 :: t1 :: ts ∧ pyFloat? (rstripPercent t0) = none) :
    parsePercentilesLines (pre ++ line :: post) = parsePercentilesLines (pre ++ post) := by
  have hskip : percLineEntry? line = none := by
    rcases h with hlen | ⟨t0, t1, ts, hsplit, hrank⟩
    · rcases hs2 : splitWs line with _ | ⟨a, _ | ⟨b, tl⟩⟩
      · simp [percLineEntry?, hs2]
      · simp [percLineEntry?, hs2]
      · rw [hs2] at hlen; simp at hlen; omega
    · cases hv : pyFloat? t1 with
      | none => simp [percLineEntry?, hsplit, hv]
      | some v => simp [percLineEntry?, hsplit, hv, hrank]
  unfold parsePercentilesLines
  rw [List.foldl_append, List.foldl_append, List.foldl_cons]
  congr 1
  simp [percStep, hskip]

/-- C10 witness: the skip theorem applied to a block containing a line of
one token with a percent sign between two well-formed lines. -/
theorem c10_rank_skip_witness :
    parsePercentilesLines [("10% 1.0").data, ("50%").data, ("90% 2.0").data] =
      parsePercentilesLines [("10% 1.0").data, ("90% 2.0").data] := by
  have h := c10_rank_skip [("10% 1.0").data] [("90% 2.0").data] (("50%").data)
    (by with_unfolding_all decide) (Or.inl (by with_unfolding_all decide))
  simpa using h

end PlotLatency
